import Mathlib

/-!
Verification of the ai-inference-backend specification against its sources.

The frontend (src/frontend/src/hooks/useInference.js, useModels.js,
src/frontend/src/components/MetricsPanel.js, TextInput) is embedded as pure
state-transition functions: each React state cell becomes a field of a state
record, and the outcome of a `fetch` becomes an explicit parameter, so a
single call to a hook function is a function from the pre-state (plus the
network outcome) to the post-state.

The model-serving core (registry, loader, batching dispatcher) is described
by the spec and the repository README but its implementation is not under
src/; those parts are modelled from the spec, with doc comments saying so.
-/

/- ===== Embedding of src/frontend/src/hooks/useInference.js ===== -/

/-- The parsed JSON body of a successful POST /infer response, as the hook
reads it (fields `success`, `result`, `model_used`, `latency_ms`,
`request_id`, `timestamp`). -/
structure InferResponse where
  success : Bool
  result : String
  model_used : String
  latency_ms : Nat
  request_id : String
  timestamp : String
deriving DecidableEq

/-- The object pushed onto `inferenceHistory` by processInference. -/
structure HistoryEntry where
  requestId : String
  text : List Char
  model : String
  latencyMs : Nat
  success : Bool
  timestamp : String
  result : String
deriving DecidableEq

/-- The React state of the useInference hook: `text`, `result`, `loading`,
`error`, `inferenceHistory`, plus whether `abortControllerRef.current` is
non-null. -/
structure InferenceState where
  text : List Char
  result : Option InferResponse
  loading : Bool
  error : Option String
  inferenceHistory : List HistoryEntry
  hasAbortController : Bool
deriving DecidableEq

/-- How the awaited `fetch('/infer', ...)` settles: an ok response with a
parsed body, a non-ok HTTP response (the hook throws on `!response.ok`),
a rejection whose error name is not AbortError, or an AbortError rejection. -/
inductive FetchOutcome where
  | ok (data : InferResponse)
  | httpError (status : Nat)
  | failure (message : String)
  | aborted
deriving DecidableEq

def promptMessage : String := "Please enter some text to process"

def fallbackMessage : String := "Failed to process inference"

def cancelledMessage : String := "Request was cancelled"

def httpErrorText (status : Nat) : String := "HTTP error! status: " ++ toString status

/-- JavaScript `String.prototype.trim`: drop whitespace from both ends.
Text is modelled as its character list throughout the frontend embedding. -/
def trimChars (cs : List Char) : List Char :=
  ((cs.dropWhile Char.isWhitespace).reverse.dropWhile Char.isWhitespace).reverse

/-- The history entry built in the success branch of processInference. -/
def historyEntryOf (textTrimmed : List Char) (now : String) (data : InferResponse) : HistoryEntry :=
  { requestId := data.request_id
    text := textTrimmed
    model := data.model_used
    latencyMs := data.latency_ms
    success := data.success
    timestamp := now
    result := data.result }

/-- The synchronous first phase of processInference once the blank-text guard
has passed: setLoading(true), setError(null), setResult(null), and a fresh
AbortController is installed. -/
def startInference (s : InferenceState) : InferenceState :=
  { s with loading := true, error := none, result := none, hasAbortController := true }

/-- The rest of processInference once the fetch settles: the success branch
stores the response and appends one history entry; the catch branch stores a
message unless the error is an AbortError; the finally branch clears loading
and the abort controller. -/
def settleInference (s : InferenceState) (now : String) (outcome : FetchOutcome) :
    InferenceState :=
  match outcome with
  | FetchOutcome.ok data =>
      { s with result := some data
               inferenceHistory := s.inferenceHistory ++ [historyEntryOf (trimChars s.text) now data]
               loading := false
               hasAbortController := false }
  | FetchOutcome.httpError status =>
      { s with error := some (httpErrorText status)
               loading := false
               hasAbortController := false }
  | FetchOutcome.failure message =>
      { s with error := some (if message = "" then fallbackMessage else message)
               loading := false
               hasAbortController := false }
  | FetchOutcome.aborted =>
      { s with loading := false, hasAbortController := false }

/-- processInference from useInference.js: the guard returns early with a
prompt when the trimmed text is empty (the Bool records whether a network
request was performed); otherwise the start phase runs, the fetch settles
with `outcome`, and the settle phase runs. -/
def processInference (s : InferenceState) (now : String) (outcome : FetchOutcome) :
    InferenceState × Bool :=
  if trimChars s.text = [] then ({ s with error := some promptMessage }, false)
  else (settleInference (startInference s) now outcome, true)

/-- stopInference from useInference.js: when an abort controller is present
it aborts, sets loading false and stores the cancellation message; otherwise
nothing happens. -/
def stopInference (s : InferenceState) : InferenceState :=
  if s.hasAbortController then
    { s with loading := false, error := some cancelledMessage }
  else s

/-- clearHistory from useInference.js. -/
def clearHistory (s : InferenceState) : InferenceState :=
  { s with inferenceHistory := [] }

/- ===== Embedding of src/frontend/src/hooks/useModels.js ===== -/

/-- An element of the /models listing as the frontend consumes it. -/
structure ModelInfo where
  name : String
  version : String
  is_loaded : Bool
deriving DecidableEq

/-- The React state of the useModels hook. -/
structure ModelsState where
  models : List ModelInfo
  loading : Bool
  error : Option String
deriving DecidableEq

/-- How an awaited fetch settles for the useModels hook: ok with a parsed
body, or a non-ok HTTP status (on which the hook throws). -/
inductive HttpOutcome (α : Type) where
  | ok (data : α)
  | bad (status : Nat)
deriving DecidableEq

/-- fetchModels from useModels.js: on ok the models list is replaced and the
error cleared; on a non-ok status the thrown message is caught and stored and
the models list is untouched; loading ends false either way. -/
def fetchModels (s : ModelsState) (outcome : HttpOutcome (List ModelInfo)) : ModelsState :=
  match outcome with
  | HttpOutcome.ok data => { models := data, loading := false, error := none }
  | HttpOutcome.bad status =>
      { s with loading := false, error := some (httpErrorText status) }

/-- The observable actions a useModels mutation performs, in order. -/
inductive ModelsAction where
  | postLoad (modelName version : String)
  | postUnload (modelName version : String)
  | refreshModels
  | returnPayload
deriving DecidableEq

/-- Whether a useModels call threw or returned its parsed body. -/
inductive CallOutcome where
  | thrown (message : String)
  | returned (payload : String)
deriving DecidableEq

/-- Result of a loadModel/unloadModel call: the hook state afterwards, the
thrown-or-returned outcome, and the ordered log of actions performed. -/
structure ModelCallResult where
  state : ModelsState
  outcome : CallOutcome
  log : List ModelsAction
deriving DecidableEq

def loadFailText (status : Nat) : String := "Failed to load model: " ++ toString status

def unloadFailText (status : Nat) : String := "Failed to unload model: " ++ toString status

/-- loadModel from useModels.js: a non-ok status throws and performs nothing
else; an ok response awaits fetchModels (with its own outcome) and only then
returns the parsed payload. -/
def loadModel (s : ModelsState) (modelName version : String)
    (response : HttpOutcome String) (refreshResponse : HttpOutcome (List ModelInfo)) :
    ModelCallResult :=
  match response with
  | HttpOutcome.bad status =>
      { state := s
        outcome := CallOutcome.thrown (loadFailText status)
        log := [ModelsAction.postLoad modelName version] }
  | HttpOutcome.ok payload =>
      { state := fetchModels s refreshResponse
        outcome := CallOutcome.returned payload
        log := [ModelsAction.postLoad modelName version, ModelsAction.refreshModels,
                ModelsAction.returnPayload] }

/-- unloadModel from useModels.js, same shape as loadModel. -/
def unloadModel (s : ModelsState) (modelName version : String)
    (response : HttpOutcome String) (refreshResponse : HttpOutcome (List ModelInfo)) :
    ModelCallResult :=
  match response with
  | HttpOutcome.bad status =>
      { state := s
        outcome := CallOutcome.thrown (unloadFailText status)
        log := [ModelsAction.postUnload modelName version] }
  | HttpOutcome.ok payload =>
      { state := fetchModels s refreshResponse
        outcome := CallOutcome.returned payload
        log := [ModelsAction.postUnload modelName version, ModelsAction.refreshModels,
                ModelsAction.returnPayload] }

/- ===== Embedding of the TextInput component (src/unnamed/part_003) ===== -/

def maxTextLength : Nat := 10000

/-- An edit of the text state reachable through TextInput: the textarea
onChange handler (which stores `value.slice(0, 10000)`) or the clear button
(which stores the empty string). Text is modelled as its character list. -/
inductive TextEdit where
  | change (value : List Char)
  | clear
deriving DecidableEq

def applyTextEdit (text : List Char) : TextEdit → List Char
  | TextEdit.change value => value.take maxTextLength
  | TextEdit.clear => []

/-- The text state after a sequence of TextInput edits, starting from the
initial empty string of useState. -/
def applyTextEdits (edits : List TextEdit) : List Char :=
  edits.foldl applyTextEdit []

/- ===== Embedding of MetricsPanel.js ===== -/

/-- The parsed /metrics body as MetricsPanel consumes it. -/
structure Metrics where
  total_requests : Nat
  successful_requests : Nat
  failed_requests : Nat
  average_latency_ms : ℚ
  requests_per_model : List (String × Nat)
  timestamp : String
deriving DecidableEq

/-- Rounding to one decimal place, the idealisation over ℚ of `toFixed(1)`. -/
def roundToTenth (q : ℚ) : ℚ := (round (q * 10) : ℤ) / 10

/-- successRate from MetricsPanel.js: the ternary guards on
`total_requests > 0` before dividing. -/
def successRate (m : Metrics) : ℚ :=
  if 0 < m.total_requests then
    roundToTenth ((m.successful_requests : ℚ) / (m.total_requests : ℚ) * 100)
  else 0

/- ===== Model-serving core, modelled from the spec ===== -/

/-- Modelled from the spec: the ModelEntry load states of the Registry
(registry implementation is not under src/). -/
inductive MState where
  | Unloaded
  | Loading
  | Ready
  | Unloading
  | Failed
deriving DecidableEq

/-- Modelled from the spec: the Registry error taxonomy of section 7. -/
inductive RegError where
  | Busy
  | ModelNotFound
  | ModelLoadFailed
  | ModelUnloadFailed
deriving DecidableEq

/-- Modelled from the spec: the outcome of one Registry `unload(key)` call
(registry implementation is not under src/): the entry state afterwards, the
returned state or error, and whether Loader.unload was invoked. -/
structure UnloadOutcome where
  newState : MState
  result : Except RegError MState
  loaderUnloadCalled : Bool

/-- Modelled from the spec: Registry `unload(key)`: if Ready (or Failed, per
the state-cycle invariant) it calls Loader.unload and ends Unloaded; if a
load or unload is in flight it fails with Busy; on an already-Unloaded entry
it is a no-op returning the current state. -/
def unload : MState → UnloadOutcome
  | MState.Ready => ⟨MState.Unloaded, Except.ok MState.Unloaded, true⟩
  | MState.Failed => ⟨MState.Unloaded, Except.ok MState.Unloaded, true⟩
  | MState.Loading => ⟨MState.Loading, Except.error RegError.Busy, false⟩
  | MState.Unloading => ⟨MState.Unloading, Except.error RegError.Busy, false⟩
  | MState.Unloaded => ⟨MState.Unloaded, Except.ok MState.Unloaded, false⟩

/-- Modelled from the spec: the registry entry of one key, viewed by an
interleaving of concurrent callers: its load state, the number of
Loader.load invocations since the entry last returned to Unloaded, the
callers currently waiting on the in-flight load, and the (caller, outcome)
pairs resolved so far. -/
structure RegTrace where
  state : MState
  loadsSinceUnload : Nat
  waiters : List Nat
  resolved : List (Nat × Bool)
deriving DecidableEq

/-- Modelled from the spec: the atomic events of the per-key exclusive
section of section 4.3: an ensure_ready call that finds the entry Unloaded
starts the one load; an ensure_ready call that finds it Loading joins the
waiters; the in-flight load settles to Ready or Failed and every waiter
observes that outcome; an unload begins from a settled state and completes
back to Unloaded. -/
inductive RegEvent where
  | ensureFromUnloaded (caller : Nat)
  | ensureWhileLoading (caller : Nat)
  | settleLoad (outcome : Bool)
  | beginUnload
  | finishUnload
deriving DecidableEq

/-- Modelled from the spec: one step of the per-key registry entry.  Each
event is guarded by the state it requires; an event whose guard fails leaves
the entry unchanged (the per-key exclusive section admits no other
interleaving). -/
def regStep (s : RegTrace) (e : RegEvent) : RegTrace :=
  match e with
  | RegEvent.ensureFromUnloaded c =>
      if s.state = MState.Unloaded then
        { state := MState.Loading
          loadsSinceUnload := s.loadsSinceUnload + 1
          waiters := [c]
          resolved := s.resolved }
      else s
  | RegEvent.ensureWhileLoading c =>
      if s.state = MState.Loading then { s with waiters := c :: s.waiters } else s
  | RegEvent.settleLoad outcome =>
      if s.state = MState.Loading then
        { state := if outcome then MState.Ready else MState.Failed
          loadsSinceUnload := s.loadsSinceUnload
          waiters := []
          resolved := s.resolved ++ s.waiters.map (fun c => (c, outcome)) }
      else s
  | RegEvent.beginUnload =>
      if s.state = MState.Ready ∨ s.state = MState.Failed then
        { s with state := MState.Unloading }
      else s
  | RegEvent.finishUnload =>
      if s.state = MState.Unloading then
        { state := MState.Unloaded, loadsSinceUnload := 0, waiters := [], resolved := s.resolved }
      else s

/-- A registry entry starts Unloaded with no load performed. -/
def regInit : RegTrace := ⟨MState.Unloaded, 0, [], []⟩

/-- The entry after a sequence of events from the initial state. -/
def regRun (events : List RegEvent) : RegTrace := events.foldl regStep regInit

/-- The dedup invariant: at most one Loader.load since the last completed
unload, and none while the entry is Unloaded. -/
def RegInv (s : RegTrace) : Prop :=
  s.loadsSinceUnload ≤ 1 ∧ (s.state = MState.Unloaded → s.loadsSinceUnload = 0)

lemma regStep_inv (s : RegTrace) (e : RegEvent) (h : RegInv s) : RegInv (regStep s e) := by
  obtain ⟨h1, h2⟩ := h
  cases e with
  | ensureFromUnloaded c =>
      by_cases hs : s.state = MState.Unloaded
      · exact ⟨by simp [regStep, hs, h2 hs], by simp [regStep, hs]⟩
      · exact ⟨by simp [regStep, hs, h1], by simpa [regStep, hs] using h2⟩
  | ensureWhileLoading c =>
      by_cases hs : s.state = MState.Loading
      · exact ⟨by simp [regStep, hs, h1], by simp [regStep, hs]⟩
      · exact ⟨by simp [regStep, hs, h1], by simpa [regStep, hs] using h2⟩
  | settleLoad outcome =>
      by_cases hs : s.state = MState.Loading
      · refine ⟨by simp [regStep, hs, h1], ?_⟩
        cases outcome <;> simp [regStep, hs]
      · exact ⟨by simp [regStep, hs, h1], by simpa [regStep, hs] using h2⟩
  | beginUnload =>
      by_cases hs : s.state = MState.Ready ∨ s.state = MState.Failed
      · exact ⟨by simp [regStep, hs, h1], by simp [regStep, hs]⟩
      · exact ⟨by simp [regStep, hs, h1], by simpa [regStep, hs] using h2⟩
  | finishUnload =>
      by_cases hs : s.state = MState.Unloading
      · exact ⟨by simp [regStep, hs], by simp [regStep, hs]⟩
      · exact ⟨by simp [regStep, hs, h1], by simpa [regStep, hs] using h2⟩

lemma regFoldl_inv (events : List RegEvent) (s : RegTrace) (h : RegInv s) :
    RegInv (events.foldl regStep s) := by
  induction events generalizing s with
  | nil => exact h
  | cons e rest ih => exact ih (regStep s e) (regStep_inv s e h)

lemma regRun_inv (events : List RegEvent) : RegInv (regRun events) :=
  regFoldl_inv events regInit ⟨Nat.zero_le 1, fun _ => rfl⟩

/-- Modelled from the spec: an inference request arrival for one key, with
its submission time and input payload (dispatcher implementation is not
under src/). -/
structure Arrival where
  time : Nat
  input : String
deriving DecidableEq

/-- Modelled from the spec: batch formation for one key, window open at
`windowStart` with the requests gathered so far held reversed in `acc`: a
request joins the open batch while the batch is below max_batch_size and the
request falls within batch_timeout of the window opening; otherwise the batch
closes and a new window opens at that request. -/
def formAux (maxBatchSize timeout : Nat) : Nat → List String → List Arrival → List (List String)
  | _, acc, [] => [acc.reverse]
  | windowStart, acc, a :: rest =>
      if acc.length < maxBatchSize ∧ a.time ≤ windowStart + timeout then
        formAux maxBatchSize timeout windowStart (a.input :: acc) rest
      else
        acc.reverse :: formAux maxBatchSize timeout a.time [a.input] rest

/-- Modelled from the spec: the batches formed from a stream of arrivals for
one key; the first arrival opens the first window. -/
def formBatches (maxBatchSize timeout : Nat) : List Arrival → List (List String)
  | [] => []
  | a :: rest => formAux maxBatchSize timeout a.time [a.input] rest

/-- Modelled from the spec: dispatch of the closed batches: the capability
is invoked once per batch with the ordered inputs, and each request is paired
with the output at its own position.  The first component counts capability
invocations. -/
def dispatchBatches (capability : List String → List String) (batches : List (List String)) :
    Nat × List (List (String × String)) :=
  (batches.length, batches.map (fun inputs => inputs.zip (capability inputs)))

/-- Modelled from the spec: infer_batch runs each request of the sequence
independently; element i of the output is the result of request i alone. -/
def inferBatch (runOne : String → Except String String) (requests : List String) :
    List (Except String String) :=
  requests.map runOne

lemma formAux_single (maxBatchSize timeout : Nat) (windowStart : Nat) (acc : List String)
    (rest : List Arrival) (hlen : acc.length + rest.length ≤ maxBatchSize)
    (htime : ∀ a ∈ rest, a.time ≤ windowStart + timeout) :
    formAux maxBatchSize timeout windowStart acc rest
      = [acc.reverse ++ rest.map Arrival.input] := by
  induction rest generalizing acc windowStart with
  | nil => simp [formAux]
  | cons a rest ih =>
      have hc : acc.length < maxBatchSize := by
        simp only [List.length_cons] at hlen
        omega
      have ht : a.time ≤ windowStart + timeout := htime a (List.mem_cons_self a rest)
      simp only [formAux, if_pos (And.intro hc ht)]
      rw [ih windowStart (a.input :: acc) (by simp at hlen ⊢; omega)
        (fun b hb => htime b (List.mem_cons_of_mem a hb))]
      simp

/- ===== Sample inputs for the witnesses ===== -/

def sampleNow : String := "2024-01-01T00:00:00.000Z"

def sampleResponse : InferResponse :=
  { success := true
    result := "a summary"
    model_used := "summarizer:v1"
    latency_ms := 123
    request_id := "req-1"
    timestamp := "2024-01-01T00:00:00.000Z" }

def sampleState : InferenceState :=
  { text := "hello world".toList
    result := none
    loading := false
    error := none
    inferenceHistory := []
    hasAbortController := false }

def blankState : InferenceState :=
  { sampleState with text := "   ".toList }

def sampleMessage : String := "network down"

def sampleMetrics : Metrics :=
  { total_requests := 4
    successful_requests := 3
    failed_requests := 1
    average_latency_ms := 100
    requests_per_model := []
    timestamp := "2024-01-01" }

def arrivalA : Arrival := { time := 0, input := "first text" }

def arrivalB : Arrival := { time := 10, input := "second text" }

def sampleRunOne : String → Except String String := fun s => Except.ok s

def dedupEvents : List RegEvent :=
  [RegEvent.ensureFromUnloaded 0, RegEvent.ensureWhileLoading 1]

/- ===== Claim theorems ===== -/

/-- C1: in every interleaving of concurrent ensure_ready events on one key,
Loader.load is invoked at most once until an unload intervenes (the count of
loads since the last completed unload never exceeds one); a caller that
arrives while a load is in flight starts no second load, and when the
in-flight load settles every waiting caller observes that settle outcome. -/
theorem ensure_ready_load_dedup (events : List RegEvent) (c : Nat) (outcome : Bool) :
    (regRun events).loadsSinceUnload ≤ 1
      ∧ (regStep (regRun events) (RegEvent.ensureWhileLoading c)).loadsSinceUnload
          = (regRun events).loadsSinceUnload
      ∧ ((regRun events).state = MState.Loading →
          ∀ w, w ∈ (regRun events).waiters →
            (w, outcome) ∈ (regStep (regRun events) (RegEvent.settleLoad outcome)).resolved) := by
  refine ⟨(regRun_inv events).1, ?_, ?_⟩
  · by_cases hs : (regRun events).state = MState.Loading <;> simp [regStep, hs]
  · intro h w hw
    simp only [regStep, if_pos h]
    exact List.mem_append.mpr (Or.inr (List.mem_map.mpr ⟨w, hw, rfl⟩))

theorem ensure_ready_load_dedup_witness :
    (regRun dedupEvents).state = MState.Loading
      ∧ 1 ∈ (regRun dedupEvents).waiters
      ∧ (1, true) ∈ (regStep (regRun dedupEvents) (RegEvent.settleLoad true)).resolved :=
  ⟨by decide, by decide,
    (ensure_ready_load_dedup dedupEvents 1 true).2.2 (by decide) 1 (by decide)⟩

/-- C2: a batch of N requests submitted within batch_timeout of the window
opening, for one key, with max_batch_size at least N, forms exactly one
batch holding the N inputs in submission order; dispatching it invokes the
capability exactly once, and zipping pairs the i-th request with the i-th
output (the projections of the pairing return exactly the inputs and exactly
the capability outputs); in infer_batch the i-th result is the independent
run of the i-th request alone. -/
theorem batch_single_invocation_positional
    (maxBatchSize timeout : Nat) (first : Arrival) (rest : List Arrival)
    (capability : List String → List String)
    (runOne : String → Except String String) (requests : List String)
    (hsize : (first :: rest).length ≤ maxBatchSize)
    (htime : ∀ a ∈ first :: rest, a.time ≤ first.time + timeout)
    (hcap : (capability ((first :: rest).map Arrival.input)).length
        = ((first :: rest).map Arrival.input).length) :
    formBatches maxBatchSize timeout (first :: rest)
        = [(first :: rest).map Arrival.input]
      ∧ (dispatchBatches capability
          (formBatches maxBatchSize timeout (first :: rest))).1 = 1
      ∧ (((first :: rest).map Arrival.input).zip
            (capability ((first :: rest).map Arrival.input))).map Prod.fst
          = (first :: rest).map Arrival.input
      ∧ (((first :: rest).map Arrival.input).zip
            (capability ((first :: rest).map Arrival.input))).map Prod.snd
          = capability ((first :: rest).map Arrival.input)
      ∧ ∀ i : Nat, (inferBatch runOne requests).get? i = (requests.get? i).map runOne := by
  have h1 : formBatches maxBatchSize timeout (first :: rest)
      = [(first :: rest).map Arrival.input] := by
    simp only [formBatches]
    rw [formAux_single maxBatchSize timeout first.time [first.input] rest
      (by
        have hs2 := hsize
        simp only [List.length_cons] at hs2
        simp only [List.length_cons, List.length_nil]
        omega)
      (fun b hb => htime b (List.mem_cons_of_mem first hb))]
    simp
  refine ⟨h1, ?_, ?_, ?_, ?_⟩
  · rw [h1]; rfl
  · exact List.map_fst_zip _ _ (le_of_eq hcap.symm)
  · exact List.map_snd_zip _ _ (le_of_eq hcap)
  · intro i
    simp [inferBatch, List.get?_map]

theorem batch_single_invocation_witness :
    formBatches 2 50 [arrivalA, arrivalB] = [[arrivalA.input, arrivalB.input]] := by
  have h := (batch_single_invocation_positional 2 50 arrivalA [arrivalB]
      (fun inputs => inputs) sampleRunOne []
      (by decide) (by decide) (by decide)).1
  simpa using h

/-- C3: Registry unload on a key whose entry is already Unloaded is a no-op:
the entry state is unchanged, the call returns the current state rather than
an error, and Loader.unload is not invoked. -/
theorem unload_noop_on_unloaded :
    unload MState.Unloaded
      = { newState := MState.Unloaded
          result := Except.ok MState.Unloaded
          loaderUnloadCalled := false } := rfl

/-- C4: when the fetch of processInference resolves with an ok response,
exactly one entry is appended to inferenceHistory, that entry carries the
response body's request_id, model_used, latency_ms, success flag and result
payload, and the result state is set to the full response object. -/
theorem processInference_ok_appends_history (s : InferenceState) (now : String)
    (data : InferResponse) (h : trimChars s.text ≠ []) :
    (processInference s now (FetchOutcome.ok data)).1.inferenceHistory
        = s.inferenceHistory ++ [historyEntryOf (trimChars s.text) now data]
      ∧ (historyEntryOf (trimChars s.text) now data).requestId = data.request_id
      ∧ (historyEntryOf (trimChars s.text) now data).model = data.model_used
      ∧ (historyEntryOf (trimChars s.text) now data).latencyMs = data.latency_ms
      ∧ (historyEntryOf (trimChars s.text) now data).success = data.success
      ∧ (historyEntryOf (trimChars s.text) now data).result = data.result
      ∧ (processInference s now (FetchOutcome.ok data)).1.result = some data := by
  refine ⟨?_, rfl, rfl, rfl, rfl, rfl, ?_⟩ <;>
    simp [processInference, settleInference, startInference, h]

theorem processInference_ok_appends_history_witness :
    trimChars sampleState.text ≠ []
      ∧ (processInference sampleState sampleNow
            (FetchOutcome.ok sampleResponse)).1.inferenceHistory
          = sampleState.inferenceHistory
              ++ [historyEntryOf (trimChars sampleState.text) sampleNow sampleResponse] :=
  ⟨by decide, (processInference_ok_appends_history sampleState sampleNow sampleResponse
      (by decide)).1⟩

/-- C5: once processInference has started a request (an abort controller is
installed), invoking stopInference and letting the pending fetch settle as
aborted ends with loading false, the error state holding the cancellation
message, no result and no new inferenceHistory entry, and the controller
cleared; invoking stopInference when no controller is installed changes
nothing. -/
theorem stopInference_cancels_pending (s : InferenceState) (now : String) :
    (startInference s).hasAbortController = true
      ∧ (settleInference (stopInference (startInference s)) now
            FetchOutcome.aborted).loading = false
      ∧ (settleInference (stopInference (startInference s)) now
            FetchOutcome.aborted).error = some cancelledMessage
      ∧ (settleInference (stopInference (startInference s)) now
            FetchOutcome.aborted).result = none
      ∧ (settleInference (stopInference (startInference s)) now
            FetchOutcome.aborted).inferenceHistory = s.inferenceHistory
      ∧ (settleInference (stopInference (startInference s)) now
            FetchOutcome.aborted).hasAbortController = false
      ∧ (s.hasAbortController = false → stopInference s = s) := by
  refine ⟨rfl, ?_, ?_, ?_, ?_, ?_, fun h => ?_⟩ <;>
    simp [startInference, stopInference, settleInference, *]

theorem stopInference_cancels_pending_witness :
    sampleState.hasAbortController = false ∧ stopInference sampleState = sampleState :=
  ⟨rfl, (stopInference_cancels_pending sampleState sampleNow).2.2.2.2.2.2 rfl⟩

/-- C6: when the fetch of processInference ends in a non-ok HTTP status or a
non-abort rejection, the error state ends non-null (the HTTP-status message,
or the rejection's message with a fallback when that message is empty),
loading ends false, and no inferenceHistory entry is appended. -/
theorem processInference_failure_error_nonnull (s : InferenceState) (now : String)
    (status : Nat) (message : String) (h : trimChars s.text ≠ []) :
    ((processInference s now (FetchOutcome.httpError status)).1.error
        = some (httpErrorText status)
      ∧ (processInference s now (FetchOutcome.httpError status)).1.loading = false
      ∧ (processInference s now (FetchOutcome.httpError status)).1.inferenceHistory
          = s.inferenceHistory)
      ∧ ((processInference s now (FetchOutcome.failure message)).1.error
          = some (if message = "" then fallbackMessage else message)
        ∧ (processInference s now (FetchOutcome.failure message)).1.loading = false
        ∧ (processInference s now (FetchOutcome.failure message)).1.inferenceHistory
            = s.inferenceHistory) := by
  refine ⟨⟨?_, ?_, ?_⟩, ⟨?_, ?_, ?_⟩⟩ <;>
    simp [processInference, settleInference, startInference, h]

theorem processInference_failure_error_nonnull_witness :
    trimChars sampleState.text ≠ []
      ∧ (processInference sampleState sampleNow (FetchOutcome.httpError 500)).1.error
          = some (httpErrorText 500) :=
  ⟨by decide, (processInference_failure_error_nonnull sampleState sampleNow 500 sampleMessage
      (by decide)).1.1⟩

/-- C7: for loadModel and unloadModel, a non-ok HTTP response makes the call
throw and leaves the models state unchanged; an ok response performs the
fetchModels refresh and only afterwards returns the parsed response, as the
ordered action log records. -/
theorem load_unload_model_http_contract (s : ModelsState) (modelName version : String)
    (status : Nat) (payload : String) (refreshResponse : HttpOutcome (List ModelInfo)) :
    ((loadModel s modelName version (HttpOutcome.bad status) refreshResponse).outcome
        = CallOutcome.thrown (loadFailText status)
      ∧ (loadModel s modelName version (HttpOutcome.bad status) refreshResponse).state = s)
      ∧ ((loadModel s modelName version (HttpOutcome.ok payload) refreshResponse).state
            = fetchModels s refreshResponse
        ∧ (loadModel s modelName version (HttpOutcome.ok payload) refreshResponse).outcome
            = CallOutcome.returned payload
        ∧ (loadModel s modelName version (HttpOutcome.ok payload) refreshResponse).log
            = [ModelsAction.postLoad modelName version, ModelsAction.refreshModels,
               ModelsAction.returnPayload])
      ∧ ((unloadModel s modelName version (HttpOutcome.bad status) refreshResponse).outcome
            = CallOutcome.thrown (unloadFailText status)
        ∧ (unloadModel s modelName version (HttpOutcome.bad status) refreshResponse).state = s)
      ∧ ((unloadModel s modelName version (HttpOutcome.ok payload) refreshResponse).state
            = fetchModels s refreshResponse
        ∧ (unloadModel s modelName version (HttpOutcome.ok payload) refreshResponse).outcome
            = CallOutcome.returned payload
        ∧ (unloadModel s modelName version (HttpOutcome.ok payload) refreshResponse).log
            = [ModelsAction.postUnload modelName version, ModelsAction.refreshModels,
               ModelsAction.returnPayload]) :=
  ⟨⟨rfl, rfl⟩, ⟨rfl, rfl, rfl⟩, ⟨rfl, rfl⟩, ⟨rfl, rfl, rfl⟩⟩

lemma textEdits_aux (edits : List TextEdit) (t : List Char) (ht : t.length ≤ maxTextLength) :
    (edits.foldl applyTextEdit t).length ≤ maxTextLength := by
  induction edits generalizing t with
  | nil => exact ht
  | cons e rest ih =>
      cases e with
      | change v =>
          exact ih (applyTextEdit t (TextEdit.change v))
            (by simpa [applyTextEdit] using Nat.min_le_left maxTextLength v.length)
      | clear => exact ih (applyTextEdit t TextEdit.clear) (by simp [applyTextEdit])

/-- C8: the text state reachable through TextInput never exceeds 10000
characters: starting from the empty initial state, any sequence of onChange
edits (each of which truncates to the first 10000 characters) and clears
leaves the stored text length at most 10000. -/
theorem textInput_length_bounded (edits : List TextEdit) :
    (applyTextEdits edits).length ≤ maxTextLength :=
  textEdits_aux edits [] (Nat.zero_le maxTextLength)

/-- C9: MetricsPanel computes the success rate without dividing by zero:
when total_requests is zero the rate is 0, and when it is positive the rate
is successful_requests / total_requests * 100 rounded to one decimal place. -/
theorem successRate_guarded (m : Metrics) :
    (m.total_requests = 0 → successRate m = 0)
      ∧ (0 < m.total_requests →
          successRate m
            = roundToTenth ((m.successful_requests : ℚ)
                / (m.total_requests : ℚ) * 100)) := by
  constructor
  · intro h
    simp [successRate, h]
  · intro h
    simp [successRate, h]

theorem successRate_guarded_witness :
    0 < sampleMetrics.total_requests
      ∧ successRate sampleMetrics
          = roundToTenth ((sampleMetrics.successful_requests : ℚ)
              / (sampleMetrics.total_requests : ℚ) * 100) :=
  ⟨by decide, (successRate_guarded sampleMetrics).2 (by decide)⟩

/-- C10: calling processInference with empty or whitespace-only text performs
no network request and returns after setting the error state to the prompt
message; loading, result and inferenceHistory are left unchanged (the
returned state differs from the input state only in the error field). -/
theorem processInference_blank_no_request (s : InferenceState) (now : String)
    (outcome : FetchOutcome) (h : trimChars s.text = []) :
    processInference s now outcome = ({ s with error := some promptMessage }, false) := by
  simp [processInference, h]

theorem processInference_blank_no_request_witness :
    trimChars blankState.text = []
      ∧ processInference blankState sampleNow FetchOutcome.aborted
          = ({ blankState with error := some promptMessage }, false) :=
  ⟨by decide,
    processInference_blank_no_request blankState sampleNow FetchOutcome.aborted (by decide)⟩
